import Mathlib

/-!
Verification of the control/coordination layer of the battery-cycler
menu-bar application (source: `src/battery_cycler_gui.py`).

The Python source works over text: counter files of `KEY=VALUE` lines,
OS query output, and a JSON config record.  Strings are embedded as
`List Char` and every Python string primitive the source uses
(`startswith`, `split` on a one-character separator, `strip`,
`strip('"')`, `lower`, substring containment, `int(...)`, `str(...)`)
is given an executable counterpart below, so concrete runs of the
embedded functions can be evaluated by `decide`/`rfl`.
-/

namespace BatteryCycler

/-- Strings are embedded as lists of characters. -/
abbrev Str := List Char

/-- `needle` is a prefix of `hay`: models Python `hay.startswith(needle)`
(restricted to the prefix test itself; the source always applies it to
whole lines). -/
def startsWithL : Str → Str → Bool
  | [], _ => true
  | _ :: _, [] => false
  | n :: ns, h :: hs => (n == h) && startsWithL ns hs

/-- Substring containment: models Python `needle in hay`. -/
def hasSub (needle : Str) : Str → Bool
  | [] => needle.isEmpty
  | h :: hs => startsWithL needle (h :: hs) || hasSub needle hs

/-- `s.split(sep)` for a one-character separator `c`, exactly as Python
splits: every occurrence separates, empty pieces are kept, and the empty
string splits to `[""]`.  All separators used by the source (`=`, `:`,
`\n`) are single characters. -/
def splitChar (c : Char) : Str → List Str
  | [] => [[]]
  | x :: xs =>
    match splitChar c xs with
    | [] => [[]]
    | r :: rs => if x == c then [] :: r :: rs else (x :: r) :: rs

/-- The whitespace characters Python `str.strip()` removes (ASCII range;
the source decodes the file as ASCII with replacement, so only these
occur in practice). -/
def isPySpace (c : Char) : Bool :=
  c == ' ' || c == '\t' || c == '\n' || c == '\r' || c == Char.ofNat 11 || c == Char.ofNat 12

/-- Python `s.strip()`. -/
def pyStrip (s : Str) : Str :=
  ((s.dropWhile isPySpace).reverse.dropWhile isPySpace).reverse

/-- Python `s.strip('"')`: removes every leading and trailing
double-quote character. -/
def stripQuote (s : Str) : Str :=
  ((s.dropWhile (fun c => c == Char.ofNat 34)).reverse.dropWhile
    (fun c => c == Char.ofNat 34)).reverse

/-- Numeric value of a run of decimal digits, most significant first. -/
def digitsToNat (l : Str) : Nat :=
  l.foldl (fun n c => 10 * n + (c.toNat - 48)) 0

/-- Python `int(s)` on a stripped string, returning `none` where Python
raises `ValueError`: an optional sign followed by a nonempty digit run.
(Python additionally allows underscore digit grouping and non-ASCII
digits; the source's inputs are ASCII `KEY=VALUE` files and OS output,
where neither occurs.) -/
def pyInt (s : Str) : Option Int :=
  let t := pyStrip s
  match t with
  | '+' :: rest =>
    if rest.isEmpty then none
    else if rest.all Char.isDigit then some (digitsToNat rest) else none
  | '-' :: rest =>
    if rest.isEmpty then none
    else if rest.all Char.isDigit then some (-(digitsToNat rest : Int)) else none
  | _ =>
    if t.isEmpty then none
    else if t.all Char.isDigit then some (digitsToNat t) else none

/-- Decimal digits of `n`, accumulator-based; `fuel` bounds the number of
divisions (any `fuel > log10 n` gives the exact digits). -/
def natToStrAux : Nat → Nat → Str → Str
  | 0, _, acc => acc
  | fuel + 1, n, acc =>
    let d := Char.ofNat (48 + n % 10)
    if n < 10 then d :: acc else natToStrAux fuel (n / 10) (d :: acc)

/-- Python `str(n)` for a natural number. -/
def natToStr (n : Nat) : Str := natToStrAux (n + 1) n []

/-- Python `str(i)` for an integer. -/
def intToStr : Int → Str
  | .ofNat m => natToStr m
  | .negSucc m => '-' :: natToStr (m + 1)

/-- Python `s.lower()` (ASCII; the OS query output the source lowers is
ASCII). -/
def lowerStr (s : Str) : Str := s.map Char.toLower

/-! ## Configuration model (ConfigStore)

The config file is a JSON object; `json.load` yields a Python dict with
string keys.  A dict is embedded as an insertion-ordered association
list with distinct keys; values carry the JSON scalar shapes the source
distinguishes (`isinstance(..., bool)` tests, integers, strings). -/

/-- A JSON scalar value as the source discriminates them. -/
inductive JVal
  | jint (i : Int)
  | jstr (s : Str)
  | jbool (b : Bool)
  | jnull
deriving DecidableEq

/-- A parsed JSON object / Python dict: insertion-ordered key-value list. -/
abbrev Config := List (String × JVal)

/-- Python `d[key]` lookup returning `none` for a missing key
(`key in d` is `(alookup d key).isSome`). -/
def alookup : Config → String → Option JVal
  | [], _ => none
  | (k, v) :: rest, key => if k = key then some v else alookup rest key

/-- Python `d[key] = v`: replaces the value in place if the key is
present (keeping its position), else appends. -/
def aset : Config → String → JVal → Config
  | [], key, v => [(key, v)]
  | (k, w) :: rest, key, v =>
    if k = key then (k, v) :: rest else (k, w) :: aset rest key v

/-- `DEFAULT_CONFIG` (source lines 50-57). -/
def DEFAULT_CONFIG : Config :=
  [("upper_limit", .jint 80),
   ("lower_limit", .jint 20),
   ("pause_limit", .jint 50),
   ("reset_limit", .jint 80),
   ("cpu_stress", .jstr "high".data),
   ("gpu_stress", .jstr "off".data)]

/-- The merge loop of `load_config` (source lines 215-217): for each
default key missing from the loaded record, append the default value. -/
def mergeDefaultsAux : Config → List (String × JVal) → Config
  | c, [] => c
  | c, (k, v) :: ds =>
    mergeDefaultsAux (if (alookup c k).isSome then c else c ++ [(k, v)]) ds

/-- Defaults-merge over the full default record. -/
def mergeDefaults (c : Config) : Config := mergeDefaultsAux c DEFAULT_CONFIG

/-- Outcome of reading the config file: absent, unreadable/unparsable
(any exception inside the `try`, including `json.load` failure or a
non-dict top-level value making the merge loop raise), or a parsed dict. -/
inductive ConfigFile
  | absent
  | parseError
  | parsed (c : Config)

/-- `BatteryCyclerApp.load_config` (source lines 209-221): parsed files
are merged with defaults; a missing file or any exception yields a copy
of the defaults. -/
def load_config : ConfigFile → Config
  | .absent => DEFAULT_CONFIG
  | .parseError => DEFAULT_CONFIG
  | .parsed c => mergeDefaults c

/-- One legacy-stress-field migration step (source lines 147-150 for
`cpu_stress`, 159-162 for `gpu_stress`): read the field with the given
default, and if the value is a boolean, overwrite it with the enum
string `"high"`/`"off"`. -/
def migrateField (c : Config) (key : String) (dflt : JVal) : Config :=
  match (alookup c key).getD dflt with
  | .jbool b => aset c key (.jstr (if b then "high".data else "off".data))
  | _ => c

/-- The full boolean-to-enum migration performed at startup: `cpu_stress`
(default `"high"`) then `gpu_stress` (default `"off"`). -/
def migrate (c : Config) : Config :=
  migrateField (migrateField c "cpu_stress" (.jstr "high".data))
    "gpu_stress" (.jstr "off".data)

/-! ## StatusProbe

`get_battery_info` (source lines 227-243) runs `pmset -g batt` under a
`try`, extracts the percentage with `re.search(r'(\d+)%', output)` and
the charging flag by substring tests, and maps any exception to
`(0, False)`.

The regex search scans start positions left to right; at a start inside
a digit run the greedy `\d+` followed by `%` can only succeed when the
whole remaining run is immediately followed by `%` (backtracked shorter
matches end at a digit, which is not `%`).  So the search succeeds
exactly at the start of the first maximal digit run immediately
followed by `%`, capturing that whole run.  `scanPA` implements this as
a single left-to-right pass carrying the value of the digit run
immediately preceding the current position. -/

/-- Value of one more digit appended to an accumulated run. -/
def digitVal (c : Char) : Nat := c.toNat - 48

/-- One-pass rendering of `re.search(r'(\d+)%', s)`: `acc` is the value
of the digit run ending just before the current position (`none` when
the previous character is not a digit). -/
def scanPA : Option Nat → Str → Option Nat
  | _, [] => none
  | acc, c :: rest =>
    if c.isDigit then scanPA (some (10 * acc.getD 0 + digitVal c)) rest
    else if c = '%' then
      match acc with
      | some n => some n
      | none => scanPA none rest
    else scanPA none rest

/-- Value of a digit run (used by the specification-side scanner). -/
def runVal (ds : Str) : Nat := ds.foldl (fun n c => 10 * n + digitVal c) 0

/-- Specification-side reading of the spec sentence "percent is parsed
via a first integer followed by a percent sign pattern": walk the text,
and at each digit run check whether the whole run is immediately
followed by `%`; `fuel` bounds the walk (the text's length suffices,
since every step consumes at least one character). -/
def firstRunPercent : Nat → Str → Option Nat
  | 0, _ => none
  | _ + 1, [] => none
  | fuel + 1, c :: rest =>
    if c.isDigit then
      match List.dropWhile Char.isDigit (c :: rest) with
      | '%' :: _ => some (runVal (List.takeWhile Char.isDigit (c :: rest)))
      | aft => firstRunPercent fuel aft
    else firstRunPercent fuel rest

/-- The first integer immediately followed by a percent sign, if any
(specification side). -/
def firstIntBeforePercent (s : Str) : Option Nat := firstRunPercent s.length s

/-- `BatteryCyclerApp.get_battery_info` (source lines 227-243).  The
input is the outcome of the `pmset -g batt` call: `Except.error` when
the call raises (timeout), `Except.ok` with the captured stdout text
otherwise (a non-zero exit does not raise; it just yields whatever
stdout held). -/
def get_battery_info (res : Except Unit Str) : Nat × Bool :=
  match res with
  | .error _ => (0, false)
  | .ok out =>
    ((scanPA none out).getD 0,
     hasSub "charging".data (lowerStr out) || hasSub "AC Power".data out)

/-! `get_cycle_info` (source lines 245-268): a single `try` covering the
counter-file read and the `system_profiler SPPowerDataType` query.  A
raise anywhere jumps to the bare `except: pass`, keeping the values
assigned so far. -/

/-- Outcome of looking at the session-counter file: `absent` when
`os.path.exists` is false, `readError` when opening/reading raises, or
the decoded content (`decode('ascii','replace')` itself cannot raise). -/
inductive FileState
  | absent
  | readError
  | content (s : Str)

/-- The `TOTAL_DISCHARGE_CYCLES` loop of `get_cycle_info` (lines
252-254): every matching line re-assigns `cycles` (no `break`; the last
well-formed match wins); a malformed value makes `int` raise, aborting
the loop — the `Except.error` carries the value `cycles` held at that
point. -/
def cyclesFromLines : List Str → Int → Except Int Int
  | [], c => .ok c
  | l :: ls, c =>
    if startsWithL "TOTAL_DISCHARGE_CYCLES=".data l then
      match pyInt (pyStrip (List.getD (splitChar '=' l) 1 [])) with
      | some v => cyclesFromLines ls v
      | none => .error c
    else cyclesFromLines ls c

/-- The `Maximum Capacity` loop of `get_cycle_info` (lines 262-265):
first line containing both `Maximum Capacity` and `:` wins (`break`);
the value is the stripped text after the last `:`. -/
def healthFromLines : List Str → Option Str
  | [] => none
  | l :: ls =>
    if hasSub "Maximum Capacity".data l && hasSub ":".data l then
      some (pyStrip ((splitChar ':' l).getLast?.getD []))
    else healthFromLines ls

/-- Environment of one `get_cycle_info` call: the state file and the
outcome of the `system_profiler` query (`Except.error` = raise). -/
structure CycleEnv where
  stateFile : FileState
  spPower : Except Unit Str

/-- The file phase of `get_cycle_info` (lines 249-254): an absent file
contributes nothing (no raise); an open/read error or a malformed
`TOTAL_DISCHARGE_CYCLES` value raises, carrying the cycles value held so
far. -/
def tryCycles : FileState → Except Int Int
  | .absent => .ok 0
  | .readError => .error 0
  | .content s => cyclesFromLines (splitChar '\n' s) 0

/-- `BatteryCyclerApp.get_cycle_info` (source lines 245-268). -/
def get_cycle_info (env : CycleEnv) : Int × Str :=
  match tryCycles env.stateFile with
  | .error c => (c, "--".data)
  | .ok c =>
    match env.spPower with
    | .error _ => (c, "--".data)
    | .ok out => (c, (healthFromLines (splitChar '\n' out)).getD "--".data)

/-! ## StatsAggregator: the parsing parts of `show_stats`

`show_stats` (source lines 358-506) reads the session-counter file
inside a dedicated `try` (lines 412-443) and parses the `ioreg`
register dump for `NominalChargeCapacity`/`DesignCapacity` with
field-local inner `try` blocks (lines 388-398), then derives the
calculated health and capacity strings (lines 399-403). -/

/-- The six state-file fields of `show_stats` with their initial
defaults (lines 406-411). -/
structure StateFields where
  script_cycles : Int
  initial_health : Str
  initial_apple_cycles : Str
  total_active_secs : Int
  total_discharge_secs : Int
  total_charge_secs : Int
deriving DecidableEq

/-- Defaults before the file is read (lines 406-411). -/
def initStateFields : StateFields :=
  ⟨0, "N/A".data, "N/A".data, 0, 0, 0⟩

/-- One line of the `show_stats` state-file loop (lines 416-441), in the
source's `if/elif` order.  Only the `TOTAL_DISCHARGE_CYCLES` branch can
raise (its `int` call has no inner `try`); `Except.error` carries the
state at the raise.  The three `*_SECS` branches wrap their `int` in an
inner `try`/`pass`, so a malformed value just leaves the field alone.
Under each `startswith` guard the line contains `=`, so `split("=")[1]`
exists. -/
def statsLineStep (st : StateFields) (l : Str) : Except StateFields StateFields :=
  if startsWithL "TOTAL_DISCHARGE_CYCLES=".data l then
    match pyInt (pyStrip (List.getD (splitChar '=' l) 1 [])) with
    | some v => .ok { st with script_cycles := v }
    | none => .error st
  else if startsWithL "INITIAL_HEALTH=".data l then
    let val := stripQuote (pyStrip (List.getD (splitChar '=' l) 1 []))
    .ok (if val.isEmpty then st else { st with initial_health := val ++ "%".data })
  else if startsWithL "INITIAL_APPLE_CYCLES=".data l then
    let val := stripQuote (pyStrip (List.getD (splitChar '=' l) 1 []))
    .ok (if val.isEmpty then st else { st with initial_apple_cycles := val })
  else if startsWithL "TOTAL_ACTIVE_SECS=".data l then
    match pyInt (pyStrip (List.getD (splitChar '=' l) 1 [])) with
    | some v => .ok { st with total_active_secs := v }
    | none => .ok st
  else if startsWithL "TOTAL_DISCHARGE_SECS=".data l then
    match pyInt (pyStrip (List.getD (splitChar '=' l) 1 [])) with
    | some v => .ok { st with total_discharge_secs := v }
    | none => .ok st
  else if startsWithL "TOTAL_CHARGE_SECS=".data l then
    match pyInt (pyStrip (List.getD (splitChar '=' l) 1 [])) with
    | some v => .ok { st with total_charge_secs := v }
    | none => .ok st
  else .ok st

/-- The state-file loop: a raise aborts the remaining lines; the
surrounding `try`/`except: pass` (lines 413-443) keeps the fields
assigned so far. -/
def statsLines : StateFields → List Str → StateFields
  | st, [] => st
  | st, l :: ls =>
    match statsLineStep st l with
    | .ok st₂ => statsLines st₂ ls
    | .error st₂ => st₂

/-- State-file parsing of `show_stats` (lines 412-443): an absent file
or a read error leaves every field at its default. -/
def parseStateFile : FileState → StateFields
  | .absent => initStateFields
  | .readError => initStateFields
  | .content s => statsLines initStateFields (splitChar '\n' s)

/-- One line of the `ioreg` loop (lines 388-398): two independent `if`s
(not `elif`), each with an inner `try` so a malformed integer is
swallowed field-locally; every match re-assigns (last match wins). -/
def ioregStep (st : Option Int × Option Int) (l : Str) : Option Int × Option Int :=
  let st₁ :=
    if hasSub "\"NominalChargeCapacity\"".data l && hasSub "=".data l then
      match pyInt (pyStrip ((splitChar '=' l).getLast?.getD [])) with
      | some v => (some v, st.2)
      | none => st
    else st
  if hasSub "\"DesignCapacity\"".data l && hasSub "=".data l then
    match pyInt (pyStrip ((splitChar '=' l).getLast?.getD [])) with
    | some v => (st₁.1, some v)
    | none => st₁
  else st₁

/-- Python truthiness of `nominal_cap`/`design_cap` (`None` and `0` are
falsy). -/
def pyTruthyOptInt : Option Int → Bool
  | none => false
  | some n => n ≠ 0

/-- The calculated-health / capacity derivation (lines 399-403):
`calc_health = str(int(nominal*100/design)) + "%"` and
`cap_info = "nominal/design mAh"` when `nominal_cap and design_cap and
design_cap > 0`, else both `"N/A"`.  Python's `int()` of the (for these
magnitudes exact) float quotient truncates toward zero, which is
`Int.tdiv`. -/
def calcHealthCap (nominal design : Option Int) : Str × Str :=
  if pyTruthyOptInt nominal && pyTruthyOptInt design && decide (0 < design.getD 0) then
    (intToStr (Int.tdiv (nominal.getD 0 * 100) (design.getD 0)) ++ "%".data,
     intToStr (nominal.getD 0) ++ "/".data ++ intToStr (design.getD 0) ++ " mAh".data)
  else ("N/A".data, "N/A".data)

/-- The register-derived part of `show_stats` (lines 380-403), taking
the decoded `ioreg` output text.  (An `ioreg` timeout raises out of the
whole `show_stats` `try` and aborts the report with an error dialog; it
never reaches this derivation.) -/
def showStatsCalc (out : Str) : Str × Str :=
  let nd := (splitChar '\n' out).foldl ioregStep (none, none)
  calcHealthCap nd.1 nd.2

/-- The nested `fmt_time` of `show_stats` (source lines 446-453), on
integers as in the source (Python `//` and `%` are floor division and
floor modulus, `Int.fdiv`/`Int.fmod`). -/
def fmt_time (secs : Int) : Str :=
  if secs = 0 then "0m".data
  else
    let hours := Int.fdiv secs 3600
    let mins := Int.fdiv (Int.fmod secs 3600) 60
    if 0 < hours then intToStr hours ++ "h ".data ++ intToStr mins ++ "m".data
    else intToStr mins ++ "m".data

/-! ## CycleSessionController

The session is an external OS process tracked through
`self.script_process`.  A tracked process is modelled by its pid, its
current liveness (`poll() is None`), and whether signalling its process
group succeeds (`os.killpg` raising models the failure path).  External
actions (config save, signals, `pkill`, the `battery maintain` call,
launching the script) are recorded as an effect trace; the `rumps`
notification and menu updates are presentation and are not modelled. -/

/-- A tracked external session process. -/
structure Session where
  pid : Nat
  alive : Bool
  killpgOk : Bool
deriving DecidableEq

/-- Externally visible actions of the controller, in program order. -/
inductive Effect
  | saveConfig (c : Config)
  | killGroup (pid : Nat)
  | terminateProc (pid : Nat)
  | pkillStressNg
  | pkillFfmpegVideotoolbox
  | batteryMaintain (v : Int)
  | launchScript
deriving DecidableEq

/-- The controller's mutable state: the tracked handle and the config. -/
structure AppState where
  script_process : Option Session
  config : Config
deriving DecidableEq

/-- `self.script_process and self.script_process.poll() is None`. -/
def isAliveProc : Option Session → Bool
  | some s => s.alive
  | none => false

/-- The signal-then-fallback of the stop paths (e.g. lines 292-295):
`os.killpg` on the process group, or `terminate()` on the tracked
process when the group signal raises. -/
def stopTracked (s : Session) : List Effect :=
  if s.killpgOk then [.killGroup s.pid] else [.terminateProc s.pid]

/-- The handle-clearing side of `update_status` (lines 278-284), which
every controller operation invokes last: a tracked process that has
exited is dropped. -/
def updateStatusProc : Option Session → Option Session
  | some s => if s.alive then some s else none
  | none => none

/-- The start branch of `toggle_cycling` (lines 298-309) followed by the
trailing `update_status` (line 310): save the current config, launch the
script in a new session, track the handle. -/
def toggleStart (st : AppState) (fresh : Session) : AppState × List Effect :=
  ({ script_process := updateStatusProc (some fresh), config := st.config },
   [.saveConfig st.config, .launchScript])

/-- `BatteryCyclerApp.toggle_cycling` (source lines 289-310).  `fresh`
is the process a launch would create (its liveness is decided by the
OS, so it is an input). -/
def toggle_cycling (st : AppState) (fresh : Session) : AppState × List Effect :=
  match st.script_process with
  | some s =>
    if s.alive then
      ({ script_process := updateStatusProc none, config := st.config }, stopTracked s)
    else toggleStart st fresh
  | none => toggleStart st fresh

/-- Common body of the two override operations
(`pause_at_percent`, lines 508-534; `stop_at_percent`, lines 536-562),
parameterised by the config key they persist: set and save the limit,
stop the session if it is live, `pkill` the two stress helpers, and
invoke `battery maintain <val>`; the trailing `update_status` drops any
stale handle. -/
def overrideBody (key : String) (st : AppState) (val : Int) : AppState × List Effect :=
  let config₁ := aset st.config key (.jint val)
  let stopPart : Option Session × List Effect :=
    match st.script_process with
    | some s => if s.alive then (none, stopTracked s) else (some s, [])
    | none => (none, [])
  ({ script_process := updateStatusProc stopPart.1, config := config₁ },
   .saveConfig config₁ :: stopPart.2
     ++ [.pkillStressNg, .pkillFfmpegVideotoolbox, .batteryMaintain val])

/-- `BatteryCyclerApp.pause_at_percent` (source lines 508-534). -/
def pause_at_percent (st : AppState) (val : Int) : AppState × List Effect :=
  overrideBody "pause_limit" st val

/-- `BatteryCyclerApp.stop_at_percent` (source lines 536-562). -/
def stop_at_percent (st : AppState) (val : Int) : AppState × List Effect :=
  overrideBody "reset_limit" st val

/-- The two roles of the spec's `override_to_percent`. -/
inductive Role
  | pause
  | reset

/-- The spec's `override_to_percent(role, value)`: `pause` is
`pause_at_percent`, `reset` is `stop_at_percent`. -/
def override_to_percent : Role → AppState → Int → AppState × List Effect
  | .pause => pause_at_percent
  | .reset => stop_at_percent

/-- The config field each role persists. -/
def roleKey : Role → String
  | .pause => "pause_limit"
  | .reset => "reset_limit"

/-! ## Helper lemmas -/

theorem alookup_append (c₁ c₂ : Config) (key : String) :
    alookup (c₁ ++ c₂) key =
      match alookup c₁ key with
      | some w => some w
      | none => alookup c₂ key := by
  induction c₁ with
  | nil => simp [alookup]
  | cons p rest ih =>
    obtain ⟨k, v⟩ := p
    by_cases h : k = key <;> simp [alookup, h, ih]

theorem alookup_aset_self (c : Config) (key : String) (v : JVal) :
    alookup (aset c key v) key = some v := by
  induction c with
  | nil => simp [aset, alookup]
  | cons p rest ih =>
    obtain ⟨k, w⟩ := p
    by_cases h : k = key <;> simp [aset, alookup, h, ih]

theorem alookup_aset_ne (c : Config) (key : String) (v : JVal) (key' : String)
    (h : key ≠ key') : alookup (aset c key v) key' = alookup c key' := by
  induction c with
  | nil => simp [aset, alookup, h]
  | cons p rest ih =>
    obtain ⟨k, w⟩ := p
    by_cases hk : k = key
    · subst hk
      simp [aset, alookup, h]
    · by_cases hk' : k = key'
      · subst hk'
        simp [aset, alookup, hk]
      · simp [aset, alookup, hk, hk', ih]

theorem mergeDefaultsAux_lookup_isSome (ds : List (String × JVal)) :
    ∀ (c : Config) (key : String), (alookup c key).isSome →
      alookup (mergeDefaultsAux c ds) key = alookup c key := by
  induction ds with
  | nil => intro c key _; rfl
  | cons p ds' ih =>
    intro c key hsome
    obtain ⟨k, v⟩ := p
    by_cases hk : (alookup c k).isSome
    · simpa [mergeDefaultsAux, hk] using ih c key hsome
    · have hne : k ≠ key := by
        intro he
        subst he
        exact hk hsome
      have hkeep : alookup (c ++ [(k, v)]) key = alookup c key := by
        rw [alookup_append]
        obtain ⟨w, hw⟩ := Option.isSome_iff_exists.mp hsome
        simp [hw]
      have := ih (c ++ [(k, v)]) key (by rw [hkeep]; exact hsome)
      simpa [mergeDefaultsAux, hk, hkeep] using this

theorem mergeDefaultsAux_lookup_mem (ds : List (String × JVal)) :
    ∀ (c : Config) (key : String) (dv : JVal), (key, dv) ∈ ds →
      (ds.map Prod.fst).Nodup →
      alookup (mergeDefaultsAux c ds) key = some ((alookup c key).getD dv) := by
  induction ds with
  | nil => intro c key dv hmem _; cases hmem
  | cons p ds' ih =>
    intro c key dv hmem hnd
    obtain ⟨k, v⟩ := p
    rw [List.map_cons, List.nodup_cons] at hnd
    rcases List.mem_cons.mp hmem with heq | hmem'
    · injection heq with hk hv
      subst hk
      subst hv
      cases hsome : alookup c key with
      | some w =>
        have h₁ : mergeDefaultsAux c ((key, dv) :: ds') = mergeDefaultsAux c ds' := by
          simp [mergeDefaultsAux, hsome]
        rw [h₁, mergeDefaultsAux_lookup_isSome ds' c key (by simp [hsome]), hsome]
        rfl
      | none =>
        have h₁ : mergeDefaultsAux c ((key, dv) :: ds')
            = mergeDefaultsAux (c ++ [(key, dv)]) ds' := by
          simp [mergeDefaultsAux, hsome]
        have hlk : alookup (c ++ [(key, dv)]) key = some dv := by
          rw [alookup_append, hsome]
          simp [alookup]
        rw [h₁, mergeDefaultsAux_lookup_isSome ds' _ key (by simp [hlk]), hlk]
        simp [hsome]
    · have hkey : key ≠ k := by
        intro he
        subst he
        exact hnd.1 (List.mem_map.mpr ⟨(key, dv), hmem', rfl⟩)
      by_cases hk : (alookup c k).isSome
      · have h₁ : mergeDefaultsAux c ((k, v) :: ds') = mergeDefaultsAux c ds' := by
          simp [mergeDefaultsAux, hk]
        rw [h₁]
        exact ih c key dv hmem' hnd.2
      · have h₁ : mergeDefaultsAux c ((k, v) :: ds')
            = mergeDefaultsAux (c ++ [(k, v)]) ds' := by
          simp [mergeDefaultsAux, hk]
        have hkeep : alookup (c ++ [(k, v)]) key = alookup c key := by
          rw [alookup_append]
          cases hck : alookup c key with
          | some w => rfl
          | none => simp [alookup, Ne.symm hkey]
        rw [h₁, ih _ key dv hmem' hnd.2, hkeep]

theorem alookup_migrateField_ne (c : Config) (key : String) (dflt : JVal)
    (key' : String) (h : key ≠ key') :
    alookup (migrateField c key dflt) key' = alookup c key' := by
  unfold migrateField
  split
  · exact alookup_aset_ne c key _ key' h
  · rfl

theorem migrateField_value_not_bool (c : Config) (key : String) (dflt : JVal)
    (b : Bool) : (alookup (migrateField c key dflt) key).getD dflt ≠ .jbool b := by
  unfold migrateField
  split
  · rw [alookup_aset_self]
    simp
  · rename_i hnb
    exact hnb b

theorem migrateField_noop (c : Config) (key : String) (dflt : JVal)
    (h : ∀ b, (alookup c key).getD dflt ≠ .jbool b) :
    migrateField c key dflt = c := by
  unfold migrateField
  split
  · rename_i b hb
    exact absurd hb (h b)
  · rfl

theorem fmodNat (m k : Nat) : Int.fmod (m : Int) (k : Int) = ((m % k : Nat) : Int) := by
  cases m with
  | zero => simp [Int.fmod]
  | succ m => rfl

theorem fdivNat (m k : Nat) : Int.fdiv (m : Int) (k : Int) = ((m / k : Nat) : Int) :=
  (Int.ofNat_fdiv m k).symm

theorem intToStr_natCast (m : Nat) : intToStr (m : Int) = natToStr m := rfl

/-! ## Claim theorems -/

/-- Claim C6: for every persisted config file — including files missing
any subset of the default keys — `load_config` returns a config in which
every default key is present and equals either the persisted value or
its documented default; on parse failure or a missing file it returns
exactly the defaults and never propagates the error. -/
theorem C6_confirmed :
    load_config ConfigFile.absent = DEFAULT_CONFIG
    ∧ load_config ConfigFile.parseError = DEFAULT_CONFIG
    ∧ ∀ (c : Config) (k : String) (dv : JVal), (k, dv) ∈ DEFAULT_CONFIG →
        alookup (load_config (ConfigFile.parsed c)) k = some ((alookup c k).getD dv) :=
  ⟨rfl, rfl, fun c k dv h =>
    mergeDefaultsAux_lookup_mem DEFAULT_CONFIG c k dv h (by decide)⟩

/-- Witness for C6: a file persisting only `upper_limit` still yields
`lower_limit` and, at the persisted key, the persisted value. -/
theorem C6_confirmed_witness :
    (("lower_limit", JVal.jint 20) ∈ DEFAULT_CONFIG)
    ∧ alookup (load_config (ConfigFile.parsed [("upper_limit", JVal.jint 999)])) "lower_limit"
        = some ((alookup [("upper_limit", JVal.jint 999)] "lower_limit").getD (JVal.jint 20)) :=
  ⟨by decide, C6_confirmed.2.2 [("upper_limit", JVal.jint 999)] "lower_limit" (JVal.jint 20)
    (by decide)⟩

/-- Claim C10: `load_config` performs no domain validation — every
key-value pair of a parsed config file (out-of-domain values,
non-integers, and unknown extra keys alike) is still present, unchanged,
in the returned config. -/
theorem C10_confirmed :
    ∀ (c : Config) (k : String) (v : JVal), alookup c k = some v →
      alookup (load_config (ConfigFile.parsed c)) k = some v := by
  intro c k v h
  show alookup (mergeDefaultsAux c DEFAULT_CONFIG) k = some v
  rw [mergeDefaultsAux_lookup_isSome DEFAULT_CONFIG c k (by simp [h])]
  exact h

/-- Witness for C10: an out-of-domain non-integer `upper_limit` and an
unknown extra key both survive `load_config` unchanged. -/
theorem C10_confirmed_witness :
    alookup [("upper_limit", JVal.jstr "huge".data), ("mystery_key", JVal.jint 7)] "mystery_key"
      = some (JVal.jint 7)
    ∧ alookup (load_config (ConfigFile.parsed
        [("upper_limit", JVal.jstr "huge".data), ("mystery_key", JVal.jint 7)])) "mystery_key"
      = some (JVal.jint 7) :=
  ⟨by decide, C10_confirmed _ "mystery_key" (JVal.jint 7) (by decide)⟩

/-- Claim C9: the legacy-stress-field migration (booleans mapped to
`"high"`/`"off"` for `cpu_stress` and `gpu_stress`) is idempotent. -/
theorem C9_confirmed : ∀ c : Config, migrate (migrate c) = migrate c := by
  intro c
  unfold migrate
  have hcpu : ∀ b, (alookup
      (migrateField (migrateField c "cpu_stress" (.jstr "high".data))
        "gpu_stress" (.jstr "off".data)) "cpu_stress").getD (.jstr "high".data)
      ≠ JVal.jbool b := by
    intro b
    rw [alookup_migrateField_ne _ "gpu_stress" _ "cpu_stress" (by decide)]
    exact migrateField_value_not_bool c "cpu_stress" (.jstr "high".data) b
  rw [migrateField_noop _ "cpu_stress" (.jstr "high".data) hcpu]
  exact migrateField_noop _ "gpu_stress" (.jstr "off".data)
    (migrateField_value_not_bool _ "gpu_stress" (.jstr "off".data))

/-- Claim C8: for every non-negative number of seconds, `fmt_time`
renders `"<h>h <m>m"` when the input is at least one hour and `"<m>m"`
otherwise, with minutes truncated as `(secs % 3600) / 60`; in
particular `0 → "0m"`, `59 → "0m"`, `90 → "1m"`, `3661 → "1h 1m"`. -/
theorem C8_confirmed :
    (∀ n : Nat, fmt_time (n : Int) =
      if 3600 ≤ n then
        natToStr (n / 3600) ++ "h ".data ++ natToStr (n % 3600 / 60) ++ "m".data
      else natToStr (n % 3600 / 60) ++ "m".data)
    ∧ fmt_time 0 = "0m".data ∧ fmt_time 59 = "0m".data
    ∧ fmt_time 90 = "1m".data ∧ fmt_time 3661 = "1h 1m".data := by
  refine ⟨?_, by decide, by decide, by decide, by decide⟩
  intro n
  by_cases h0 : n = 0
  · subst h0
    decide
  · unfold fmt_time
    rw [if_neg (by exact_mod_cast h0)]
    rw [show (3600 : Int) = ((3600 : Nat) : Int) from rfl,
      show (60 : Int) = ((60 : Nat) : Int) from rfl,
      fdivNat, fmodNat, fdivNat]
    simp only [intToStr_natCast, Int.natCast_pos]
    by_cases h : 3600 ≤ n
    · rw [if_pos (Nat.div_pos h (by norm_num)), if_pos h]
    · have hz : n / 3600 = 0 := Nat.div_eq_of_lt (Nat.lt_of_not_le h)
      rw [if_neg (by simp [hz]), if_neg h]

theorem overrideBody_spec (key : String) (st : AppState) (val : Int) :
    alookup (overrideBody key st val).1.config key = some (.jint val)
    ∧ (overrideBody key st val).1.script_process = none
    ∧ (∃ ks, (overrideBody key st val).2
        = .saveConfig (overrideBody key st val).1.config :: ks
           ++ [.pkillStressNg, .pkillFfmpegVideotoolbox, .batteryMaintain val])
    ∧ ∀ s, st.script_process = some s → s.alive = true →
        Effect.killGroup s.pid ∈ (overrideBody key st val).2
        ∨ Effect.terminateProc s.pid ∈ (overrideBody key st val).2 := by
  cases hsp : st.script_process with
  | none =>
    refine ⟨?_, ?_, ⟨[], ?_⟩, ?_⟩
    · simp [overrideBody, hsp, alookup_aset_self]
    · simp [overrideBody, hsp, updateStatusProc]
    · simp [overrideBody, hsp]
    · intro s hs _
      cases hs
  | some s =>
    cases ha : s.alive with
    | false =>
      refine ⟨?_, ?_, ⟨[], ?_⟩, ?_⟩
      · simp [overrideBody, hsp, ha, alookup_aset_self]
      · simp [overrideBody, hsp, ha, updateStatusProc]
      · simp [overrideBody, hsp, ha]
      · intro s' hs' ha'
        injection hs' with he
        rw [← he] at ha'
        rw [ha] at ha'
        cases ha'
    | true =>
      refine ⟨?_, ?_, ⟨stopTracked s, ?_⟩, ?_⟩
      · simp [overrideBody, hsp, ha, alookup_aset_self]
      · simp [overrideBody, hsp, ha, updateStatusProc]
      · simp [overrideBody, hsp, ha]
      · intro s' hs' _
        injection hs' with he
        subst he
        cases hk : s.killpgOk with
        | true =>
          left
          simp [overrideBody, hsp, ha, stopTracked, hk]
        | false =>
          right
          simp [overrideBody, hsp, ha, stopTracked, hk]

/-- Claim C4: for both roles and from either entry state,
`override_to_percent` persists the selected value into the corresponding
config field, ends with no tracked session (stopping a live session if
one existed), and invokes the external maintain-at-percent primitive
with the selected value — even when no session was running. -/
theorem C4_confirmed :
    ∀ (role : Role) (st : AppState) (val : Int),
      alookup (override_to_percent role st val).1.config (roleKey role) = some (.jint val)
      ∧ (override_to_percent role st val).1.script_process = none
      ∧ (∃ ks, (override_to_percent role st val).2
          = .saveConfig (override_to_percent role st val).1.config :: ks
             ++ [.pkillStressNg, .pkillFfmpegVideotoolbox, .batteryMaintain val])
      ∧ ∀ s, st.script_process = some s → s.alive = true →
          Effect.killGroup s.pid ∈ (override_to_percent role st val).2
          ∨ Effect.terminateProc s.pid ∈ (override_to_percent role st val).2 := by
  intro role st val
  cases role with
  | pause => exact overrideBody_spec "pause_limit" st val
  | reset => exact overrideBody_spec "reset_limit" st val

/-- Witness for C4: the pause role on a live session (whose group signal
fails) with value 55. -/
theorem C4_confirmed_witness :
    alookup (override_to_percent Role.pause (AppState.mk (some (Session.mk 3 true false)) []) 55).1.config
        (roleKey Role.pause) = some (.jint 55)
    ∧ (AppState.mk (some (Session.mk 3 true false)) []).script_process
        = some (Session.mk 3 true false)
    ∧ (Session.mk 3 true false).alive = true
    ∧ (Effect.killGroup 3
        ∈ (override_to_percent Role.pause (AppState.mk (some (Session.mk 3 true false)) []) 55).2
      ∨ Effect.terminateProc 3
        ∈ (override_to_percent Role.pause (AppState.mk (some (Session.mk 3 true false)) []) 55).2) :=
  ⟨(C4_confirmed Role.pause (AppState.mk (some (Session.mk 3 true false)) []) 55).1,
   rfl, rfl,
   (C4_confirmed Role.pause (AppState.mk (some (Session.mk 3 true false)) []) 55).2.2.2
     (Session.mk 3 true false) rfl rfl⟩

/-- Claim C5: `toggle_cycling` is a correct two-state flip — from Idle it
persists the current config, launches the session and tracks the handle
(Active); a second toggle on the still-live session attempts termination
of the process group (falling back to terminating the tracked process),
clears the handle and returns to Idle. -/
theorem C5_confirmed :
    ∀ (st : AppState) (fresh fresh₂ : Session),
      isAliveProc st.script_process = false →
      fresh.alive = true →
      (toggle_cycling st fresh).1.script_process = some fresh
      ∧ (toggle_cycling st fresh).1.config = st.config
      ∧ (toggle_cycling st fresh).2 = [Effect.saveConfig st.config, Effect.launchScript]
      ∧ (toggle_cycling (toggle_cycling st fresh).1 fresh₂).1.script_process = none
      ∧ ((toggle_cycling (toggle_cycling st fresh).1 fresh₂).2 = [Effect.killGroup fresh.pid]
         ∨ (toggle_cycling (toggle_cycling st fresh).1 fresh₂).2
             = [Effect.terminateProc fresh.pid]) := by
  intro st fresh fresh₂ hidle halive
  have hstart : toggle_cycling st fresh
      = (⟨some fresh, st.config⟩, [Effect.saveConfig st.config, Effect.launchScript]) := by
    cases hsp : st.script_process with
    | none => simp [toggle_cycling, hsp, toggleStart, updateStatusProc, halive]
    | some s =>
      rw [hsp] at hidle
      simp only [isAliveProc] at hidle
      simp [toggle_cycling, hsp, hidle, toggleStart, updateStatusProc, halive]
  rw [hstart]
  refine ⟨rfl, rfl, rfl, ?_, ?_⟩
  · simp [toggle_cycling, halive, updateStatusProc]
  · cases hk : fresh.killpgOk with
    | true =>
      left
      simp [toggle_cycling, halive, stopTracked, hk]
    | false =>
      right
      simp [toggle_cycling, halive, stopTracked, hk]

/-- Witness for C5: toggling from a fresh Idle state with a session that
stays alive, then toggling again. -/
theorem C5_confirmed_witness :
    isAliveProc (AppState.mk none DEFAULT_CONFIG).script_process = false
    ∧ (Session.mk 7 true true).alive = true
    ∧ ((toggle_cycling (AppState.mk none DEFAULT_CONFIG) (Session.mk 7 true true)).1.script_process
        = some (Session.mk 7 true true)
      ∧ (toggle_cycling (AppState.mk none DEFAULT_CONFIG) (Session.mk 7 true true)).1.config
        = (AppState.mk none DEFAULT_CONFIG).config
      ∧ (toggle_cycling (AppState.mk none DEFAULT_CONFIG) (Session.mk 7 true true)).2
        = [Effect.saveConfig (AppState.mk none DEFAULT_CONFIG).config, Effect.launchScript]
      ∧ (toggle_cycling
          (toggle_cycling (AppState.mk none DEFAULT_CONFIG) (Session.mk 7 true true)).1
          (Session.mk 9 true true)).1.script_process = none
      ∧ ((toggle_cycling
            (toggle_cycling (AppState.mk none DEFAULT_CONFIG) (Session.mk 7 true true)).1
            (Session.mk 9 true true)).2 = [Effect.killGroup (Session.mk 7 true true).pid]
         ∨ (toggle_cycling
              (toggle_cycling (AppState.mk none DEFAULT_CONFIG) (Session.mk 7 true true)).1
              (Session.mk 9 true true)).2
            = [Effect.terminateProc (Session.mk 7 true true).pid])) :=
  ⟨rfl, rfl,
   C5_confirmed (AppState.mk none DEFAULT_CONFIG) (Session.mk 7 true true)
     (Session.mk 9 true true) rfl rfl⟩

/-- Counterexample to claim C1: counter-file parsing is not field-local.
A malformed `TOTAL_DISCHARGE_CYCLES=abc` line aborts parsing of the
remaining lines of the file, so the well-formed sibling line
`TOTAL_ACTIVE_SECS=3600` after it is not extracted (the field keeps its
default 0), although that sibling line alone does set the field. -/
theorem C1_counterexample :
    (parseStateFile
      (.content "TOTAL_DISCHARGE_CYCLES=abc\nTOTAL_ACTIVE_SECS=3600".data)).total_active_secs
      = 0
    ∧ (statsLines initStateFields ["TOTAL_ACTIVE_SECS=3600".data]).total_active_secs = 3600
    ∧ (0 : Int) ≠ 3600 := by decide

/-- Amended claim C1: every line other than a `TOTAL_DISCHARGE_CYCLES=`
line is processed field-locally and parsing continues with the remaining
lines (malformed duration values and empty baselines just leave their
field at its default); only a `TOTAL_DISCHARGE_CYCLES=` line whose value
fails integer parsing raises, and then parsing stops with the fields as
they were before that line. -/
theorem C1_amended :
    ∀ (st : StateFields) (l : Str) (ls : List Str),
      (∃ st₂, statsLineStep st l = Except.ok st₂
        ∧ statsLines st (l :: ls) = statsLines st₂ ls)
      ∨ (startsWithL "TOTAL_DISCHARGE_CYCLES=".data l = true
        ∧ statsLineStep st l = Except.error st
        ∧ statsLines st (l :: ls) = st) := by
  intro st l ls
  by_cases h1 : startsWithL "TOTAL_DISCHARGE_CYCLES=".data l = true
  · cases hp : pyInt (pyStrip (List.getD (splitChar '=' l) 1 [])) with
    | some v =>
      left
      rw [List.getD_eq_getElem?_getD] at hp
      refine ⟨{ st with script_cycles := v }, ?_, ?_⟩
      · simp [statsLineStep, h1, hp]
      · simp [statsLines, statsLineStep, h1, hp]
    | none =>
      right
      rw [List.getD_eq_getElem?_getD] at hp
      refine ⟨h1, ?_, ?_⟩
      · simp [statsLineStep, h1, hp]
      · simp [statsLines, statsLineStep, h1, hp]
  · left
    have hok : ∃ st₂, statsLineStep st l = Except.ok st₂ := by
      unfold statsLineStep
      rw [if_neg h1]
      repeat' split
      all_goals exact ⟨_, rfl⟩
    rcases hok with ⟨st₂, h₂⟩
    refine ⟨st₂, h₂, ?_⟩
    simp [statsLines, h₂]

/-- Counterexample to claim C2: the two queries of `get_cycle_info` are
not independent.  When the counter-file read raises (malformed
`TOTAL_DISCHARGE_CYCLES` value), the OS power-data query is skipped
entirely and health is blanked to its default `"--"`, although the query
by itself would have produced `"95%"`. -/
theorem C2_counterexample :
    get_cycle_info ⟨.content "TOTAL_DISCHARGE_CYCLES=abc".data,
        .ok "Maximum Capacity: 95%".data⟩ = (0, "--".data)
    ∧ healthFromLines (splitChar '\n' "Maximum Capacity: 95%".data) = some "95%".data
    ∧ "--".data ≠ "95%".data := by decide

/-- Amended claim C2: the independence holds in one direction only — the
cycles value never depends on the outcome of the OS power-data query
(and when that query raises, health falls back to `"--"` while cycles
keeps its parsed value); but a raise during the counter-file phase skips
the OS query and leaves health at `"--"`. -/
theorem C2_amended :
    ∀ (env : CycleEnv) (q : Except Unit Str),
      (get_cycle_info { env with spPower := q }).1 = (get_cycle_info env).1
      ∧ (get_cycle_info { env with spPower := Except.error () }).2 = "--".data := by
  intro env q
  obtain ⟨fs, sp⟩ := env
  refine ⟨?_, ?_⟩
  · cases h : tryCycles fs with
    | error c => simp [get_cycle_info, h]
    | ok c =>
      cases q <;> cases sp <;> simp [get_cycle_info, h]
  · cases h : tryCycles fs with
    | error c => simp [get_cycle_info, h]
    | ok c => simp [get_cycle_info, h]

/-- Counterexample to claim C3: the calculated health is not rounded to
nearest.  With nominal 4999 and design 5000 the true ratio is 99.98%, so
round-to-nearest gives `"100%"`; the code truncates and reports
`"99%"`. -/
theorem C3_counterexample :
    (showStatsCalc
      "\"NominalChargeCapacity\" = 4999\n\"DesignCapacity\" = 5000".data).1 = "99%".data
    ∧ "99%".data ≠ "100%".data := by decide

theorem percent_ne_NA (l : Str) : l ++ ['%'] ≠ "N/A".data := by
  intro h
  have h₂ := congrArg List.getLast? h
  rw [List.getLast?_concat] at h₂
  exact absurd h₂ (by decide)

theorem mah_ne_NA (a b : Str) : a ++ "/".data ++ b ++ " mAh".data ≠ "N/A".data := by
  intro h
  have hsplit : a ++ "/".data ++ b ++ " mAh".data
      = (a ++ "/".data ++ (b ++ " mA".data)) ++ ['h'] := by
    simp [List.append_assoc]
  rw [hsplit] at h
  have h₂ := congrArg List.getLast? h
  rw [List.getLast?_concat] at h₂
  exact absurd h₂ (by decide)

/-- Amended claim C3: for parsed register values, calculated health is
`trunc(nominal*100/design)` (truncation toward zero, not rounding)
formatted as a percent string when nominal is nonzero and design is
positive, and `"N/A"` otherwise (in particular also when design > 0 but
nominal is 0 or unparsed); the capacity field is `"nominal/design mAh"`
exactly when calculated health is available. -/
theorem C3_amended :
    ∀ n d : Int,
      (calcHealthCap (some n) (some d)
        = if n ≠ 0 ∧ 0 < d then
            (intToStr (Int.tdiv (n * 100) d) ++ "%".data,
             intToStr n ++ "/".data ++ intToStr d ++ " mAh".data)
          else ("N/A".data, "N/A".data))
      ∧ calcHealthCap none (some d) = ("N/A".data, "N/A".data)
      ∧ calcHealthCap (some n) none = ("N/A".data, "N/A".data)
      ∧ calcHealthCap none none = ("N/A".data, "N/A".data)
      ∧ ((calcHealthCap (some n) (some d)).2 = "N/A".data
          ↔ (calcHealthCap (some n) (some d)).1 = "N/A".data) := by
  intro n d
  have hchar : calcHealthCap (some n) (some d)
      = if n ≠ 0 ∧ 0 < d then
          (intToStr (Int.tdiv (n * 100) d) ++ "%".data,
           intToStr n ++ "/".data ++ intToStr d ++ " mAh".data)
        else ("N/A".data, "N/A".data) := by
    by_cases h : n ≠ 0 ∧ 0 < d
    · have hd : d ≠ 0 := ne_of_gt h.2
      simp [calcHealthCap, pyTruthyOptInt, h.1, hd, h.2, if_pos h]
    · rcases not_and_or.mp h with h0 | hd
      · push_neg at h0
        simp [calcHealthCap, pyTruthyOptInt, h0, if_neg h]
      · have hd' : ¬(0 < d) := hd
        simp [calcHealthCap, pyTruthyOptInt, hd', if_neg h]
  refine ⟨hchar, by simp [calcHealthCap, pyTruthyOptInt], by simp [calcHealthCap, pyTruthyOptInt],
    by simp [calcHealthCap, pyTruthyOptInt], ?_⟩
  rw [hchar]
  by_cases h : n ≠ 0 ∧ 0 < d
  · rw [if_pos h]
    exact iff_of_false (mah_ne_NA (intToStr n) (intToStr d))
      (percent_ne_NA (intToStr (Int.tdiv (n * 100) d)))
  · rw [if_neg h]

theorem startsWithL_iff (n : Str) : ∀ h : Str, startsWithL n h = true ↔ n <+: h := by
  induction n with
  | nil => intro h; simp [startsWithL]
  | cons a ns ih =>
    intro h
    cases h with
    | nil => simp [startsWithL]
    | cons b hs => simp [startsWithL, List.cons_prefix_cons, ih]

theorem hasSub_iff (n : Str) : ∀ h : Str, hasSub n h = true ↔ n <:+: h := by
  intro h
  induction h with
  | nil => simp [hasSub, List.isEmpty_iff]
  | cons b hs ih => simp [hasSub, startsWithL_iff, ih, List.infix_cons_iff]

theorem firstRunPercent_nil (fuel : Nat) : firstRunPercent fuel [] = none := by
  cases fuel <;> rfl

theorem scanPA_some_percent :
    ∀ (rest : Str) (n : Nat) (ys : Str),
      List.dropWhile Char.isDigit rest = '%' :: ys →
      scanPA (some n) rest
        = some (List.foldl (fun m c => 10 * m + digitVal c) n
            (List.takeWhile Char.isDigit rest)) := by
  intro rest
  induction rest with
  | nil => intro n ys h; cases h
  | cons y ys' ih =>
    intro n ys h
    by_cases hdig : y.isDigit
    · rw [List.dropWhile_cons, if_pos hdig] at h
      rw [List.takeWhile_cons, if_pos hdig, List.foldl_cons]
      rw [show scanPA (some n) (y :: ys')
          = scanPA (some (10 * n + digitVal y)) ys' from by simp [scanPA, hdig]]
      exact ih (10 * n + digitVal y) ys h
    · rw [List.dropWhile_cons, if_neg hdig] at h
      injection h with hy hys
      subst hy
      rw [List.takeWhile_cons, if_neg hdig]
      simp [scanPA]

theorem scanPA_some_nopercent :
    ∀ (rest : Str) (n : Nat),
      (∀ ys : Str, List.dropWhile Char.isDigit rest ≠ '%' :: ys) →
      scanPA (some n) rest = scanPA none (List.dropWhile Char.isDigit rest) := by
  intro rest
  induction rest with
  | nil => intro n _; rfl
  | cons y ys' ih =>
    intro n h
    by_cases hdig : y.isDigit
    · rw [List.dropWhile_cons, if_pos hdig] at h ⊢
      rw [show scanPA (some n) (y :: ys')
          = scanPA (some (10 * n + digitVal y)) ys' from by simp [scanPA, hdig]]
      exact ih (10 * n + digitVal y) h
    · rw [List.dropWhile_cons, if_neg hdig] at h ⊢
      have hy : y ≠ '%' := by
        intro he
        exact h ys' (by rw [he])
      calc scanPA (some n) (y :: ys') = scanPA none ys' := by simp [scanPA, hdig, hy]
        _ = scanPA none (y :: ys') := by simp [scanPA, hdig, hy]

theorem scanPA_eq_firstRun :
    ∀ (fuel : Nat) (l : Str), l.length ≤ fuel → scanPA none l = firstRunPercent fuel l := by
  intro fuel
  induction fuel with
  | zero =>
    intro l hl
    rw [List.length_eq_zero.mp (Nat.le_zero.mp hl)]
    rfl
  | succ fuel ih =>
    intro l hl
    cases l with
    | nil => rfl
    | cons c rest =>
      have hrest : rest.length ≤ fuel := Nat.le_of_succ_le_succ hl
      by_cases hdig : c.isDigit
      · have hstep : scanPA none (c :: rest) = scanPA (some (digitVal c)) rest := by
          simp [scanPA, hdig]
        have hfr : firstRunPercent (fuel + 1) (c :: rest)
            = match List.dropWhile Char.isDigit rest with
              | '%' :: _ => some (runVal (c :: List.takeWhile Char.isDigit rest))
              | aft => firstRunPercent fuel aft := by
          rw [show firstRunPercent (fuel + 1) (c :: rest)
              = match List.dropWhile Char.isDigit (c :: rest) with
                | '%' :: _ => some (runVal (List.takeWhile Char.isDigit (c :: rest)))
                | aft => firstRunPercent fuel aft from by rw [firstRunPercent, if_pos hdig]]
          rw [List.dropWhile_cons, if_pos hdig, List.takeWhile_cons, if_pos hdig]
        rw [hstep, hfr]
        cases hdw : List.dropWhile Char.isDigit rest with
        | nil =>
          rw [scanPA_some_nopercent rest (digitVal c) (by rw [hdw]; intro ys h; cases h), hdw]
          simp [scanPA, firstRunPercent_nil]
        | cons y ys =>
          by_cases hy : y = '%'
          · subst hy
            rw [scanPA_some_percent rest (digitVal c) ys hdw]
            simp [runVal, List.foldl_cons]
          · have hnp : ∀ ys₂ : Str, List.dropWhile Char.isDigit rest ≠ '%' :: ys₂ := by
              intro ys₂ h
              rw [hdw] at h
              injection h with h1 _
              exact hy h1
            rw [scanPA_some_nopercent rest (digitVal c) hnp, hdw]
            have hlen : (y :: ys).length ≤ fuel := by
              have h₁ : (List.dropWhile Char.isDigit rest).length ≤ rest.length :=
                (List.dropWhile_sublist Char.isDigit).length_le
              rw [hdw] at h₁
              exact Nat.le_trans h₁ hrest
            rw [ih (y :: ys) hlen]
            simp [hy]
      · have hstep : scanPA none (c :: rest) = scanPA none rest := by
          by_cases hc : c = '%' <;> simp [scanPA, hdig, hc]
        have hfr : firstRunPercent (fuel + 1) (c :: rest) = firstRunPercent fuel rest := by
          rw [firstRunPercent, if_neg hdig]
        rw [hstep, hfr]
        exact ih rest hrest

/-- Claim C7: `get_battery_info` never raises — on any failure it
returns `(0, false)`; otherwise the percent is the value of the first
integer immediately followed by a percent sign in the query text (0 when
there is no such match), and charging holds iff the text contains the
charging token case-insensitively or the AC-power indicator. -/
theorem C7_confirmed :
    (∀ u : Unit, get_battery_info (Except.error u) = (0, false))
    ∧ (∀ out : Str, (get_battery_info (Except.ok out)).1 = (firstIntBeforePercent out).getD 0)
    ∧ (∀ out : Str, (get_battery_info (Except.ok out)).2 = true
        ↔ ("charging".data <:+: lowerStr out ∨ "AC Power".data <:+: out)) := by
  refine ⟨fun _ => rfl, ?_, ?_⟩
  · intro out
    show (scanPA none out).getD 0 = (firstRunPercent out.length out).getD 0
    rw [scanPA_eq_firstRun out.length out (Nat.le_refl _)]
  · intro out
    simp [get_battery_info, hasSub_iff]

end BatteryCycler
